import Mathlib

/-!
# A verification model of the seaduck particle-advection engine

The repository documents (docs/notebook/AVISO.ipynb and the getting-started
page) a Lagrangian particle advection engine: grid topology classification
(`tp.typ`), coordinate↔index transforms, a trajectory integrator
(`Particle.to_list_of_time` with `normal_stops`/`update_stops`), an inclusion
callback (`interested_in`), and time conversion (`convert_time`, seconds since
1970-01-01, possibly negative).  The engine sources themselves (the seaduck
package modules) are not part of this snapshot, so every definition below is
modelled from the specification of those components, and the theorems check
the specification's guarantees against that model.

Numbers are rationals (ℚ) — the model is exact arithmetic; times from
`convert_time` are integers (whole seconds).
-/

namespace Seaduck

/-! ## GridTopology -/

/-- Topology tag of a grid: periodic in longitude, or bounded.
Modelled from the spec: GridTopology's `TopologyTag` (the notebook's
`bathtub.tp.typ`, e.g. `x_periodic`). -/
inductive TopologyTag where
  | x_periodic : TopologyTag
  | bounded : TopologyTag
deriving DecidableEq

/-- Span of a coordinate axis: last value minus first value. -/
def axisSpan (ax : List ℚ) : ℚ :=
  match ax with
  | [] => 0
  | a :: rest => rest.getLastD a - a

/-- Modelled from the spec: `GridTopology.classify(coordinate_axis)`.
Inspects the span and spacing of a horizontal coordinate axis; if the axis
spans (approximately — here exactly, in exact arithmetic) a full 360° range
with consistent spacing at the wrap point (the gap from the last point back
around to the first equals the axis spacing), it tags the axis periodic;
otherwise bounded.  Total: ambiguous/degenerate axes (fewer than two points,
zero span, zero spacing) default to bounded. -/
def classify (ax : List ℚ) : TopologyTag :=
  match ax with
  | a :: b :: rest =>
      let spacing := b - a
      let span := (b :: rest).getLastD a - a
      if 0 < spacing ∧ 0 < span ∧ span + spacing = 360 then .x_periodic
      else .bounded
  | _ => .bounded

/-- The spec's wording of the periodicity condition, for comparison with
`classify`: the axis has at least two points, positive spacing, a positive
span, and covers a full 360° range with consistent spacing at the wrap
point. -/
def fullGlobeAxis (ax : List ℚ) : Prop :=
  ∃ a b rest, ax = a :: b :: rest ∧
    0 < b - a ∧ 0 < (b :: rest).getLastD a - a ∧
    ((b :: rest).getLastD a - a) + (b - a) = 360

/-- Modelled from the spec: `GridTopology.wrap(index, axis_length)` reduces an
out-of-range fractional index modulo the axis length for periodic axes. -/
def wrap (i n : ℚ) : ℚ := i - n * ⌊i / n⌋

/-- Modelled from the spec: `GridTopology.in_bounds(index, axis_length)` for
bounded axes (no wrap, flagged out-of-range instead). -/
def in_bounds (i n : ℚ) : Bool := decide (0 ≤ i) && decide (i ≤ n)

/-! ## CoordinateIndexer: one rectilinear axis -/

/-- Modelled from the spec: forward index location on one rectilinear
(monotonic) axis given by its list of cell edges.  Finds the cell
`[e_k, e_{k+1})` containing `x` and returns the fractional index
`k + (x - e_k)/(e_{k+1} - e_k)`; `none` when `x` lies outside every cell
(out of domain). -/
def fracIndexOn : List ℚ → ℚ → Option ℚ
  | a :: b :: rest, x =>
      if a ≤ x ∧ x < b then some ((x - a) / (b - a))
      else (fracIndexOn (b :: rest) x).map (· + 1)
  | _, _ => none

/-- Modelled from the spec: the inverse transform on one rectilinear axis —
given a fractional index, linear interpolation between the two surrounding
cell edges recovers the coordinate. -/
def interpPosOn : List ℚ → ℚ → Option ℚ
  | a :: b :: rest, i =>
      if i < 1 then some (a + i * (b - a))
      else interpPosOn (b :: rest) (i - 1)
  | _, _ => none

/-! ## GridDescriptor and grid-level transforms -/

/-- Modelled from the spec: `GridDescriptor` — immutable per dataset: arrays
of cell-edge coordinates per axis (x = longitude, y = latitude, z = depth)
and a topology tag.  All axes of this model are rectilinear (the AVISO grid
of the notebook is a rectilinear lat-lon grid; time and depth are never
curvilinear). -/
structure GridDescriptor where
  xEdges : List ℚ
  yEdges : List ℚ
  zEdges : List ℚ
  typ : TopologyTag
deriving DecidableEq

/-- Per-particle fractional grid-cell indices, computed on demand. -/
structure FractionalIndex where
  ix : ℚ
  iy : ℚ
  iz : ℚ
deriving DecidableEq

/-- First edge of the x-axis: origin of the periodic longitude range. -/
def lonOrigin (g : GridDescriptor) : ℚ := g.xEdges.headD 0

/-- Modelled from the spec: longitude values are normalized modulo 360°
before search when the axis is periodic; untouched on bounded axes. -/
def normLon (g : GridDescriptor) (lon : ℚ) : ℚ :=
  if g.typ = .x_periodic then lonOrigin g + wrap (lon - lonOrigin g) 360 else lon

/-- Modelled from the spec: `CoordinateIndexer.locate(lon, lat, depth)` — the
forward problem (geography → fractional index); longitude is normalized
first when the grid is periodic; `none` when any axis search fails
(out of domain). -/
def locate (g : GridDescriptor) (lon lat dep : ℚ) : Option FractionalIndex :=
  match fracIndexOn g.xEdges (normLon g lon), fracIndexOn g.yEdges lat,
      fracIndexOn g.zEdges dep with
  | some ix, some iy, some iz => some ⟨ix, iy, iz⟩
  | _, _, _ => none

/-- Modelled from the spec: `CoordinateIndexer.interpolate_position` — the
inverse of `locate`: per-axis linear interpolation between cell edges. -/
def interpolate_position (g : GridDescriptor) (fi : FractionalIndex) :
    Option (ℚ × ℚ × ℚ) :=
  match interpPosOn g.xEdges fi.ix, interpPosOn g.yEdges fi.iy,
      interpPosOn g.zEdges fi.iz with
  | some lon, some lat, some dep => some (lon, lat, dep)
  | _, _, _ => none

/-! ## TrajectoryIntegrator: particle state machine -/

/-- Modelled from the spec: per-particle state machine
`ACTIVE → ACTIVE | EXCLUDED | OUT_OF_DOMAIN`. -/
inductive Status where
  | ACTIVE : Status
  | EXCLUDED : Status
  | OUT_OF_DOMAIN : Status
deriving DecidableEq

/-- One particle's state: position (lon, lat, dep), its own time, and its
status.  The batch is the list of these (the spec's parallel arrays, exposed
behind an index-based accessor). -/
structure Particle where
  lon : ℚ
  lat : ℚ
  dep : ℚ
  t : ℚ
  status : Status
deriving DecidableEq

/-- The geographic position of a particle. -/
def posOf (pt : Particle) : ℚ × ℚ × ℚ := (pt.lon, pt.lat, pt.dep)

/-- Velocity sampled at a geographic position and time, already converted to
coordinate-space rates of change of (lon, lat, dep); `none` models an
undefined sample (`UndefinedSample`: no valid neighboring value).  This is
the FieldSampler abstracted to its contract. -/
def VelocityField : Type := ℚ → ℚ → ℚ → ℚ → Option (ℚ × ℚ × ℚ)

/-- Modelled from the spec: inclusion predicate evaluated on the current
particle state (the notebook's `interested_in` callback). -/
def Callback : Type := Particle → Bool

/-- Modelled from the spec: one 4th-order Runge–Kutta advance of length `dt`
from `(lon, lat, dep)` at time `t`; each stage samples the velocity field at
the current stage position and time and the weighted stage sum is the
coordinate displacement.  `none` when any stage's sample is undefined. -/
def rk4Step (vel : VelocityField) (lon lat dep t dt : ℚ) :
    Option (ℚ × ℚ × ℚ) := do
  let (u1, v1, w1) ← vel lon lat dep t
  let (u2, v2, w2) ← vel (lon + dt/2*u1) (lat + dt/2*v1) (dep + dt/2*w1) (t + dt/2)
  let (u3, v3, w3) ← vel (lon + dt/2*u2) (lat + dt/2*v2) (dep + dt/2*w2) (t + dt/2)
  let (u4, v4, w4) ← vel (lon + dt*u3) (lat + dt*v3) (dep + dt*w3) (t + dt)
  some (dt/6*(u1 + 2*u2 + 2*u3 + u4),
        dt/6*(v1 + 2*v2 + 2*v3 + v4),
        dt/6*(w1 + 2*w2 + 2*w3 + w4))

/-- Modelled from the spec: a position is in the valid domain when every
bounded axis contains it; a periodic x-axis never excludes a longitude. -/
def inDomain (g : GridDescriptor) (lon lat dep : ℚ) : Bool :=
  (decide (g.yEdges.headD 0 ≤ lat) && decide (lat ≤ g.yEdges.getLastD 0))
  && (decide (g.typ = .x_periodic)
      || (decide (g.xEdges.headD 0 ≤ lon) && decide (lon ≤ g.xEdges.getLastD 0)))
  && (decide (g.zEdges.headD 0 ≤ dep) && decide (dep ≤ g.zEdges.getLastD 0))

/-- Modelled from the spec: advance one particle to the stop time `tnext`
(§4.4 step 2): a frozen (non-ACTIVE) particle is returned unchanged; an
ACTIVE particle takes an RK4 step over `dt = tnext - t`, its longitude is
wrapped by the topology rules, then the inclusion predicate (EXCLUDED on
failure) and the domain bounds (OUT_OF_DOMAIN on exit) are applied; an
undefined velocity sample exits the particle rather than aborting. -/
def advanceParticle (g : GridDescriptor) (vel : VelocityField) (cb : Callback)
    (tnext : ℚ) (pt : Particle) : Particle :=
  if pt.status ≠ .ACTIVE then pt
  else
    match rk4Step vel pt.lon pt.lat pt.dep pt.t (tnext - pt.t) with
    | none => { pt with status := .OUT_OF_DOMAIN }
    | some (dx, dy, dz) =>
        let pt' : Particle :=
          ⟨normLon g (pt.lon + dx), pt.lat + dy, pt.dep + dz, tnext, .ACTIVE⟩
        if cb pt' = false then { pt' with status := .EXCLUDED }
        else if inDomain g pt'.lon pt'.lat pt'.dep = false then
          { pt' with status := .OUT_OF_DOMAIN }
        else pt'

/-- All particles of a batch advance together to the same stop; each
particle's transition is independent of the others. -/
def advanceBatch (g : GridDescriptor) (vel : VelocityField) (cb : Callback)
    (tnext : ℚ) (b : List Particle) : List Particle :=
  b.map (advanceParticle g vel cb tnext)

/-- Advance the batch through the consecutive stops and record the batch
state (snapshot) at every stop. -/
def runStops (g : GridDescriptor) (vel : VelocityField) (cb : Callback)
    (b : List Particle) : List ℚ → List (List Particle)
  | [] => []
  | s :: rest =>
      let b' := advanceBatch g vel cb s b
      b' :: runStops g vel cb b' rest

/-! ## TrajectoryIntegrator: the stop schedule -/

/-- Initial time of a particle batch (the batch's current time). -/
def initialTime (b : List Particle) : ℚ :=
  match b with
  | [] => 0
  | pt :: _ => pt.t

/-- Modelled from the spec: the direction of integration is inferred from
whether the final caller-supplied stop is greater (forward) or less
(backward) than the batch's current time. -/
def isForward (t0 : ℚ) (caller : List ℚ) : Bool :=
  decide (t0 ≤ caller.getLastD t0)

/-- Insert a time into a sorted duplicate-free list, keeping it sorted and
duplicate-free (duplicate requested times collapse to one stop). -/
def insertTime (x : ℚ) : List ℚ → List ℚ
  | [] => [x]
  | y :: ys =>
      if x < y then x :: y :: ys
      else if x = y then y :: ys
      else y :: insertTime x ys

/-- Sorted, duplicate-free ascending sequence of the distinct values of a
list of times. -/
def sortedUnion (xs : List ℚ) : List ℚ :=
  xs.foldr insertTime []

/-- Modelled from the spec / notebook: the list of stops returned by
`to_list_of_time` is the combination (set union) of `normal_stops` and
`update_stops`, ordered in the direction of integration. -/
def stopsOf (t0 : ℚ) (normal update : List ℚ) : List ℚ :=
  if isForward t0 normal then sortedUnion (normal ++ update)
  else (sortedUnion (normal ++ update)).reverse

/-- Modelled from the spec: the internal StopSchedule of §4.4 step 1 —
caller output times and refresh times merged with the batch's current time
as the first stop, ordered strictly in the direction of integration. -/
def buildSchedule (t0 : ℚ) (caller : List ℚ) : List ℚ :=
  if isForward t0 caller then
    t0 :: sortedUnion (caller.filter (fun s => decide (t0 < s)))
  else
    t0 :: (sortedUnion (caller.filter (fun s => decide (s < t0)))).reverse

/-- Modelled from the spec / notebook: `Particle.to_list_of_time` — returns
`(stops, raw)`: the resolved output stops (union of `normal_stops` and
`update_stops`) and one snapshot of the whole batch per stop. -/
def to_list_of_time (g : GridDescriptor) (vel : VelocityField) (cb : Callback)
    (b : List Particle) (normal update : List ℚ) :
    List ℚ × List (List Particle) :=
  let stops := stopsOf (initialTime b) normal update
  (stops, runStops g vel cb b stops)

/-! ## Configuration validation and the integration entry point -/

/-- Modelled from the spec: `ConfigurationError` kinds — mismatched array
lengths, unknown field name, missing required velocity component when depth
motion is requested. -/
inductive ConfigError where
  | mismatchedLengths : ConfigError
  | unknownFieldName : ConfigError
  | missingVerticalVelocity : ConfigError
deriving DecidableEq

/-- The dataset as seen by the integrator: the set of named field arrays it
exposes. -/
structure Dataset where
  fields : List String
deriving DecidableEq

/-- Modelled from the spec: caller-supplied configuration of a particle
batch — four numeric arrays (lon, lat, dep, time) and the names of the
velocity components (`wname` optional). -/
structure ParticleConfig where
  x : List ℚ
  y : List ℚ
  z : List ℚ
  t : List ℚ
  uname : String
  vname : String
  wname : Option String
deriving DecidableEq

/-- Modelled from the spec: fail-fast validation of the caller's
configuration, before any stepping begins. -/
def validateConfig (ds : Dataset) (cfg : ParticleConfig)
    (wantDepthMotion : Bool) : Option ConfigError :=
  if ¬(cfg.x.length = cfg.y.length ∧ cfg.x.length = cfg.z.length ∧
       cfg.x.length = cfg.t.length) then some .mismatchedLengths
  else if ¬(cfg.uname ∈ ds.fields ∧ cfg.vname ∈ ds.fields ∧
       (∀ w ∈ cfg.wname, w ∈ ds.fields)) then some .unknownFieldName
  else if wantDepthMotion = true ∧ cfg.wname = none then
    some .missingVerticalVelocity
  else none

/-- Build the particle batch from the four parallel arrays; every particle
starts ACTIVE. -/
def buildParticles : List ℚ → List ℚ → List ℚ → List ℚ → List Particle
  | x :: xs, y :: ys, z :: zs, t :: ts =>
      ⟨x, y, z, t, .ACTIVE⟩ :: buildParticles xs ys zs ts
  | _, _, _, _ => []

/-- Modelled from the spec: the integration call.  Configuration errors fail
the call immediately, before any stepping, and the caller-visible batch
state (second component) is the untouched initial batch; otherwise the call
returns the stops with their snapshots and the final batch state. -/
def integrate (ds : Dataset) (g : GridDescriptor) (vel : VelocityField)
    (cb : Callback) (cfg : ParticleConfig) (wantDepthMotion : Bool)
    (normal update : List ℚ) :
    Except ConfigError (List ℚ × List (List Particle)) × List Particle :=
  let b0 := buildParticles cfg.x cfg.y cfg.z cfg.t
  match validateConfig ds cfg wantDepthMotion with
  | some e => (.error e, b0)
  | none =>
      let out := to_list_of_time g vel cb b0 normal update
      (.ok out, out.2.getLastD b0)

/-! ## convert_time -/

/-- A calendar date (proleptic Gregorian). -/
structure Date where
  year : Int
  month : Nat
  day : Nat
deriving DecidableEq

/-- Whether a year is a leap year (Gregorian rule). -/
def isLeap (y : Int) : Bool :=
  (y % 4 == 0 && y % 100 != 0) || y % 400 == 0

/-- Number of days of a year. -/
def yearDays (y : Int) : Int := if isLeap y then 366 else 365

/-- Number of days of a month of a year. -/
def daysInMonth (y : Int) (m : Nat) : Nat :=
  if m = 2 then (if isLeap y then 29 else 28)
  else if m = 4 ∨ m = 6 ∨ m = 9 ∨ m = 11 then 30
  else 31

/-- Zero-based day of the year of a date. -/
def dayOfYear (dt : Date) : Int :=
  ((List.range (dt.month - 1)).map (fun i => (daysInMonth dt.year (i + 1) : Int))).sum
    + (dt.day : Int) - 1

/-- Signed number of days from 1970-01-01 to the first day of a year:
the day-count semantics of `numpy.datetime64[D]`. -/
def daysBeforeYear (y : Int) : Int :=
  if 1970 ≤ y then
    ((List.range (y - 1970).toNat).map (fun i => yearDays (1970 + i))).sum
  else
    -((List.range (1970 - y).toNat).map (fun i => yearDays (y + i))).sum

/-- The integer value of `numpy.datetime64(d)` in days since 1970-01-01. -/
def npDatetime64 (dt : Date) : Int := daysBeforeYear dt.year + dayOfYear dt

/-- Modelled from the spec / notebook: `seaduck.utils.convert_time(d)` is
equivalent to `(np.datetime64(d) - np.datetime64("1970-01-01")) /
np.timedelta64(1, "s")`: signed seconds since 1970-01-01 00:00, possibly
negative. -/
def convert_time (dt : Date) : Int :=
  86400 * (npDatetime64 dt - npDatetime64 ⟨1970, 1, 1⟩)

/-- An independent day count (era-based civil-calendar algorithm) used to
cross-check `npDatetime64`'s year/month summation. -/
def daysFromCivil (dt : Date) : Int :=
  let y : Int := if dt.month ≤ 2 then dt.year - 1 else dt.year
  let m : Int := (dt.month : Int)
  let d : Int := (dt.day : Int)
  let era : Int := (if 0 ≤ y then y else y - 399) / 400
  let yoe : Int := y - era * 400
  let mp : Int := (m + 9) % 12
  let doy : Int := (153 * mp + 2) / 5 + d - 1
  let doe : Int := yoe * 365 + yoe / 4 - yoe / 100 + doy
  era * 146097 + doe - 719468

/-- All valid dates of the years 1969–1971, for concrete cross-checks. -/
def datesAroundEpoch : List Date :=
  (List.range 3).flatMap (fun yy =>
    (List.range 12).flatMap (fun mm =>
      (List.range (daysInMonth (1969 + yy) (mm + 1))).map (fun dd =>
        ⟨1969 + yy, mm + 1, dd + 1⟩)))

/-- A global-longitude axis at 4° spacing (the AVISO Southern Ocean dataset
has a global longitude axis of this shape): spans -180° to 176°, so the wrap
gap 180 - 176 = 4 equals the spacing and span + spacing = 360. -/
def avisoGlobalLons : List ℚ := [-180, -176, -172, -168, -164, -160, -156, -152, -148, -144, -140, -136, -132, -128, -124, -120, -116, -112, -108, -104, -100, -96, -92, -88, -84, -80, -76, -72, -68, -64, -60, -56, -52, -48, -44, -40, -36, -32, -28, -24, -20, -16, -12, -8, -4, 0, 4, 8, 12, 16, 20, 24, 28, 32, 36, 40, 44, 48, 52, 56, 60, 64, 68, 72, 76, 80, 84, 88, 92, 96, 100, 104, 108, 112, 116, 120, 124, 128, 132, 136, 140, 144, 148, 152, 156, 160, 164, 168, 172, 176]

/-- The notebook's inclusion predicate `interested_in`:
keep a particle while -74.5 < lat < -45.5. -/
def interested_in (p : Particle) : Bool :=
  decide (-74.5 < p.lat) && decide (p.lat < -45.5)

/-- The everywhere-zero velocity field. -/
def zeroVelocity : VelocityField := fun _ _ _ _ => some (0, 0, 0)

/-- A velocity field whose sample is undefined everywhere. -/
def undefinedVelocity : VelocityField := fun _ _ _ _ => none

/-- The trivial inclusion predicate: keep every particle. -/
def allTrue : Callback := fun _ => true

/-- A small periodic test grid (coarse global rectilinear grid). -/
def demoGrid : GridDescriptor :=
  ⟨[-180, -60, 60, 180], [-90, 0, 90], [-20, 0], .x_periodic⟩

/-- A small bounded rectilinear test grid. -/
def demoBoundedGrid : GridDescriptor :=
  ⟨[0, 1, 3], [0, 2], [-1, 0], .bounded⟩

/-- A test particle at (0°, 0°), depth -10, time 0, ACTIVE. -/
def demoParticle : Particle := ⟨0, 0, -10, 0, .ACTIVE⟩

/-- A test particle already frozen (EXCLUDED). -/
def frozenParticle : Particle := ⟨5, 5, -10, 0, .EXCLUDED⟩

/-! ## Basic lemmas -/

theorem wrap_add_period (a : ℚ) : wrap (a + 360) 360 = wrap a 360 := by
  unfold wrap
  have h : (a + 360) / 360 = a / 360 + 1 := by
    field_simp
  rw [h, Int.floor_add_one]
  push_cast
  ring

theorem wrap_eq_self (a : ℚ) (h0 : 0 ≤ a) (h1 : a < 360) : wrap a 360 = a := by
  unfold wrap
  have hfl : ⌊a / 360⌋ = 0 := by
    rw [Int.floor_eq_zero_iff]
    constructor
    · positivity
    · rw [div_lt_one (by norm_num)]
      simpa using h1
  rw [hfl]
  push_cast
  ring

theorem fracIndexOn_nonneg :
    ∀ (edges : List ℚ) (x i : ℚ), fracIndexOn edges x = some i →
      List.Chain' (· < ·) edges → 0 ≤ i := by
  intro edges
  induction edges with
  | nil => intro x i h _; simp [fracIndexOn] at h
  | cons a rest ih =>
      intro x i h hc
      match rest with
      | [] => simp [fracIndexOn] at h
      | b :: rest' =>
          rw [fracIndexOn] at h
          by_cases hx : a ≤ x ∧ x < b
          · rw [if_pos hx] at h
            have hba : 0 < b - a := by
              have := (List.chain'_cons.mp hc).1
              linarith
            have : i = (x - a) / (b - a) := by
              simpa using h.symm
            rw [this]
            apply div_nonneg <;> linarith [hx.1, hx.2]
          · rw [if_neg hx] at h
            rcases Option.map_eq_some'.mp h with ⟨j, hj, hji⟩
            have hj0 : 0 ≤ j := ih x j hj (List.chain'_cons.mp hc).2
            rw [← hji]
            linarith

/-- Round trip on one rectilinear axis: wherever the forward search succeeds,
the inverse interpolation recovers the coordinate exactly. -/
theorem interpPosOn_fracIndexOn :
    ∀ (edges : List ℚ) (x i : ℚ), List.Chain' (· < ·) edges →
      fracIndexOn edges x = some i → interpPosOn edges i = some x := by
  intro edges
  induction edges with
  | nil => intro x i _ h; simp [fracIndexOn] at h
  | cons a rest ih =>
      intro x i hc h
      match rest with
      | [] => simp [fracIndexOn] at h
      | b :: rest' =>
          rw [fracIndexOn] at h
          by_cases hx : a ≤ x ∧ x < b
          · rw [if_pos hx] at h
            have hba : 0 < b - a := by
              have := (List.chain'_cons.mp hc).1
              linarith
            have hi : i = (x - a) / (b - a) := by simpa using h.symm
            have hi1 : i < 1 := by
              rw [hi, div_lt_one hba]
              linarith [hx.2]
            rw [interpPosOn, if_pos hi1, hi]
            congr 1
            field_simp
          · rw [if_neg hx] at h
            rcases Option.map_eq_some'.mp h with ⟨j, hj, hji⟩
            have hj0 : 0 ≤ j := fracIndexOn_nonneg _ x j hj (List.chain'_cons.mp hc).2
            have hi1 : ¬ i < 1 := by
              rw [← hji]; linarith
            rw [interpPosOn, if_neg hi1]
            have : i - 1 = j := by rw [← hji]; ring
            rw [this]
            exact ih x j (List.chain'_cons.mp hc).2 hj

theorem normLon_add_360 (g : GridDescriptor) (h : g.typ = .x_periodic)
    (lon : ℚ) : normLon g (lon + 360) = normLon g lon := by
  unfold normLon
  rw [if_pos h, if_pos h]
  have : lon + 360 - lonOrigin g = lon - lonOrigin g + 360 := by ring
  rw [this, wrap_add_period]

theorem mem_insertTime (x a : ℚ) :
    ∀ l : List ℚ, (a ∈ insertTime x l ↔ a = x ∨ a ∈ l) := by
  intro l
  induction l with
  | nil => simp [insertTime]
  | cons y ys ih =>
      rw [insertTime]
      by_cases h1 : x < y
      · rw [if_pos h1]; simp
      · rw [if_neg h1]
        by_cases h2 : x = y
        · rw [if_pos h2]
          subst h2
          simp only [List.mem_cons]
          tauto
        · rw [if_neg h2]
          simp only [List.mem_cons, ih]
          tauto

theorem insertTime_sorted (x : ℚ) :
    ∀ l : List ℚ, List.Sorted (· < ·) l →
      List.Sorted (· < ·) (insertTime x l) := by
  intro l
  induction l with
  | nil => intro _; simp [insertTime]
  | cons y ys ih =>
      intro hs
      rcases List.sorted_cons.mp hs with ⟨hy, hys⟩
      rw [insertTime]
      by_cases h1 : x < y
      · rw [if_pos h1]
        refine List.sorted_cons.mpr ⟨?_, hs⟩
        intro b hb
        rcases List.mem_cons.mp hb with hb | hb
        · rw [hb]; exact h1
        · exact lt_trans h1 (hy b hb)
      · rw [if_neg h1]
        by_cases h2 : x = y
        · rw [if_pos h2]; exact hs
        · rw [if_neg h2]
          have hyx : y < x := by
            rcases lt_trichotomy x y with h | h | h
            · exact absurd h h1
            · exact absurd h h2
            · exact h
          refine List.sorted_cons.mpr ⟨?_, ih hys⟩
          intro b hb
          rcases (mem_insertTime x b ys).mp hb with hb | hb
          · rw [hb]; exact hyx
          · exact hy b hb

theorem sortedUnion_sorted (xs : List ℚ) :
    List.Sorted (· < ·) (sortedUnion xs) := by
  induction xs with
  | nil => simp [sortedUnion]
  | cons x xs ih => exact insertTime_sorted x _ ih

theorem mem_sortedUnion (a : ℚ) :
    ∀ xs : List ℚ, (a ∈ sortedUnion xs ↔ a ∈ xs) := by
  intro xs
  induction xs with
  | nil => simp [sortedUnion]
  | cons x xs ih =>
      show a ∈ insertTime x (sortedUnion xs) ↔ _
      rw [mem_insertTime, ih]
      simp

theorem sortedUnion_nodup (xs : List ℚ) : (sortedUnion xs).Nodup :=
  (sortedUnion_sorted xs).nodup

/-- The number of stops produced by `sortedUnion` is the number of distinct
values of the input. -/
theorem length_sortedUnion (xs : List ℚ) :
    (sortedUnion xs).length = xs.toFinset.card := by
  have hset : (sortedUnion xs).toFinset = xs.toFinset := by
    ext a
    simp [List.mem_toFinset, mem_sortedUnion]
  calc (sortedUnion xs).length
      = (sortedUnion xs).toFinset.card :=
        (List.toFinset_card_of_nodup (sortedUnion_nodup xs)).symm
    _ = xs.toFinset.card := by rw [hset]

theorem runStops_length (g : GridDescriptor) (vel : VelocityField)
    (cb : Callback) :
    ∀ (stops : List ℚ) (b : List Particle),
      (runStops g vel cb b stops).length = stops.length := by
  intro stops
  induction stops with
  | nil => intro b; rfl
  | cons s rest ih =>
      intro b
      show (_ :: runStops g vel cb _ rest).length = _
      rw [List.length_cons, ih, List.length_cons]

/-- A frozen (non-ACTIVE) particle is returned unchanged by an advance. -/
theorem advanceParticle_frozen (g : GridDescriptor) (vel : VelocityField)
    (cb : Callback) (tnext : ℚ) (pt : Particle) (h : pt.status ≠ .ACTIVE) :
    advanceParticle g vel cb tnext pt = pt := by
  unfold advanceParticle
  rw [if_pos h]

/-- Indexing an advanced batch advances the indexed particle: particles are
updated independently, position `j` to position `j`. -/
theorem advanceBatch_getElem? (g : GridDescriptor) (vel : VelocityField)
    (cb : Callback) (tnext : ℚ) (b : List Particle) (j : ℕ) :
    (advanceBatch g vel cb tnext b)[j]? =
      (b[j]?).map (advanceParticle g vel cb tnext) :=
  List.getElem?_map _ b j

/-- Once a particle of the batch is frozen, every later snapshot carries it
unchanged. -/
theorem runStops_frozen (g : GridDescriptor) (vel : VelocityField)
    (cb : Callback) (j : ℕ) (pt : Particle) (hpt : pt.status ≠ .ACTIVE) :
    ∀ (stops : List ℚ) (b : List Particle), b[j]? = some pt →
      ∀ out ∈ runStops g vel cb b stops, out[j]? = some pt := by
  intro stops
  induction stops with
  | nil => intro b _ out hout; simp [runStops] at hout
  | cons s rest ih =>
      intro b hb out hout
      have hb' : (advanceBatch g vel cb s b)[j]? = some pt := by
        rw [advanceBatch_getElem?, hb, Option.map_some',
          advanceParticle_frozen g vel cb s pt hpt]
      rcases List.mem_cons.mp hout with hout | hout
      · rw [hout]; exact hb'
      · exact ih (advanceBatch g vel cb s b) hb' out hout

/-- Per-particle independence: the trajectory of the particle at index `j`
depends only on that particle's own initial state. -/
theorem runStops_locality (g : GridDescriptor) (vel : VelocityField)
    (cb : Callback) (j : ℕ) :
    ∀ (stops : List ℚ) (b₁ b₂ : List Particle), b₁[j]? = b₂[j]? →
      (runStops g vel cb b₁ stops).map (fun out => out[j]?) =
        (runStops g vel cb b₂ stops).map (fun out => out[j]?) := by
  intro stops
  induction stops with
  | nil => intro b₁ b₂ _; rfl
  | cons s rest ih =>
      intro b₁ b₂ hb
      have hb' : (advanceBatch g vel cb s b₁)[j]? =
          (advanceBatch g vel cb s b₂)[j]? := by
        rw [advanceBatch_getElem?, advanceBatch_getElem?, hb]
      show (advanceBatch g vel cb s b₁)[j]? :: _ =
        (advanceBatch g vel cb s b₂)[j]? :: _
      rw [hb', ih _ _ hb']

/-- Every snapshot has the same number of particles as the initial batch. -/
theorem runStops_rectangular (g : GridDescriptor) (vel : VelocityField)
    (cb : Callback) :
    ∀ (stops : List ℚ) (b : List Particle),
      ∀ out ∈ runStops g vel cb b stops, out.length = b.length := by
  intro stops
  induction stops with
  | nil => intro b out hout; simp [runStops] at hout
  | cons s rest ih =>
      intro b out hout
      have hlen : (advanceBatch g vel cb s b).length = b.length :=
        List.length_map _ _
      rcases List.mem_cons.mp hout with hout | hout
      · rw [hout]; exact hlen
      · rw [ih (advanceBatch g vel cb s b) out hout, hlen]

/-- An everywhere-zero velocity field makes every RK4 step a zero
displacement. -/
theorem rk4Step_zero (vel : VelocityField)
    (hv : ∀ a b c d, vel a b c d = some (0, 0, 0))
    (lon lat dep t dt : ℚ) :
    rk4Step vel lon lat dep t dt = some (0, 0, 0) := by
  simp [rk4Step, hv]

/-- With an everywhere-zero velocity field, an advance whose wrap rule fixes
the particle's longitude leaves the particle's position unchanged. -/
theorem advanceParticle_zero_pos (g : GridDescriptor) (vel : VelocityField)
    (cb : Callback) (tnext : ℚ) (pt : Particle)
    (hv : ∀ a b c d, vel a b c d = some (0, 0, 0))
    (hlon : normLon g pt.lon = pt.lon) :
    posOf (advanceParticle g vel cb tnext pt) = posOf pt := by
  unfold advanceParticle
  by_cases h : pt.status ≠ .ACTIVE
  · rw [if_pos h]
  · rw [if_neg h, rk4Step_zero vel hv]
    show posOf
        (if cb ⟨normLon g (pt.lon + 0), pt.lat + 0, pt.dep + 0, tnext, .ACTIVE⟩
            = false then _
         else _) = _
    rw [add_zero, add_zero, add_zero, hlon]
    by_cases hcb : cb ⟨pt.lon, pt.lat, pt.dep, tnext, .ACTIVE⟩ = false
    · rw [if_pos hcb]; rfl
    · rw [if_neg hcb]
      by_cases hdom :
          inDomain g pt.lon pt.lat pt.dep = false
      · rw [if_pos hdom]; rfl
      · rw [if_neg hdom]; rfl

/-- With an everywhere-zero velocity field, every snapshot reports every
particle at exactly its starting position, provided the topology wrap rule
fixes the starting longitudes (as it does for any in-range start). -/
theorem runStops_zero_velocity (g : GridDescriptor) (vel : VelocityField)
    (cb : Callback) (hv : ∀ a b c d, vel a b c d = some (0, 0, 0)) :
    ∀ (stops : List ℚ) (b : List Particle),
      (∀ pt ∈ b, normLon g pt.lon = pt.lon) →
      ∀ out ∈ runStops g vel cb b stops,
        ∀ (j : ℕ) (pt0 pt : Particle), b[j]? = some pt0 → out[j]? = some pt →
          posOf pt = posOf pt0 := by
  intro stops
  induction stops with
  | nil => intro b _ out hout; simp [runStops] at hout
  | cons s rest ih =>
      intro b hb out hout j pt0 pt h0 hpt
      have hmem0 : pt0 ∈ b := List.getElem?_mem h0
      have hstep : (advanceBatch g vel cb s b)[j]? =
          some (advanceParticle g vel cb s pt0) := by
        rw [advanceBatch_getElem?, h0, Option.map_some']
      have hpos : posOf (advanceParticle g vel cb s pt0) = posOf pt0 :=
        advanceParticle_zero_pos g vel cb s pt0 hv (hb pt0 hmem0)
      have hb' : ∀ q ∈ advanceBatch g vel cb s b, normLon g q.lon = q.lon := by
        intro q hq
        rcases List.mem_map.mp hq with ⟨p, hp, hpq⟩
        have hppos : posOf (advanceParticle g vel cb s p) = posOf p :=
          advanceParticle_zero_pos g vel cb s p hv (hb p hp)
        have hlon : q.lon = p.lon := by
          rw [← hpq]
          exact congrArg Prod.fst hppos
        rw [hlon]
        exact hb p hp
      rcases List.mem_cons.mp hout with hout | hout
      · rw [hout] at hpt
        rw [hstep] at hpt
        rw [← Option.some_inj.mp hpt]
        exact hpos
      · have := ih (advanceBatch g vel cb s b) hb' out hout j
          (advanceParticle g vel cb s pt0) pt hstep hpt
        rw [this, hpos]

/-! ## The claims -/

/-- C1: For every integration call with caller-supplied output times and
refresh times, the number of snapshots returned, and the length of the
returned stop list, both equal the number of distinct values in the set
union of the output times and the refresh times (duplicate requested times
collapse to a single stop). -/
theorem snapshot_count_eq_distinct_union (g : GridDescriptor)
    (vel : VelocityField) (cb : Callback) (b : List Particle)
    (normal update : List ℚ) :
    (to_list_of_time g vel cb b normal update).1.length
        = ((normal ++ update).toFinset).card ∧
      (to_list_of_time g vel cb b normal update).2.length
        = (to_list_of_time g vel cb b normal update).1.length := by
  have hstops : (stopsOf (initialTime b) normal update).length
      = ((normal ++ update).toFinset).card := by
    unfold stopsOf
    by_cases h : isForward (initialTime b) normal = true
    · rw [if_pos h]
      exact length_sortedUnion _
    · rw [if_neg h, List.length_reverse]
      exact length_sortedUnion _
  refine ⟨hstops, ?_⟩
  exact runStops_length g vel cb (stopsOf (initialTime b) normal update) b

/-- C3: Per-particle status transitions are one-way downward: once a
particle has left ACTIVE by snapshot `k` (EXCLUDED via the inclusion
predicate or OUT_OF_DOMAIN via a bounded-axis exit), it is frozen — the
particle (position, time and status) is identical at every later snapshot
`k' ≥ k`, so it never returns to ACTIVE even if the predicate would later
accept it. -/
theorem frozen_particles_stay_frozen (g : GridDescriptor)
    (vel : VelocityField) (cb : Callback) :
    ∀ (stops : List ℚ) (b : List Particle) (k k' : ℕ)
      (bk bk' : List Particle) (j : ℕ) (pt : Particle),
      k ≤ k' →
      (runStops g vel cb b stops)[k]? = some bk →
      (runStops g vel cb b stops)[k']? = some bk' →
      bk[j]? = some pt → pt.status ≠ .ACTIVE →
      bk'[j]? = some pt := by
  intro stops
  induction stops with
  | nil =>
      intro b k k' bk bk' j pt _ hk _ _ _
      simp [runStops] at hk
  | cons s rest ih =>
      intro b k k' bk bk' j pt hkk hk hk' hj hst
      match k, k' with
      | 0, 0 =>
          simp only [runStops, List.getElem?_cons_zero] at hk hk'
          rw [← Option.some_inj.mp hk', Option.some_inj.mp hk]
          exact hj
      | 0, Nat.succ m =>
          simp only [runStops, List.getElem?_cons_zero,
            List.getElem?_cons_succ] at hk hk'
          have hbj : (advanceBatch g vel cb s b)[j]? = some pt := by
            rw [Option.some_inj.mp hk]
            exact hj
          exact runStops_frozen g vel cb j pt hst rest
            (advanceBatch g vel cb s b) hbj bk' (List.getElem?_mem hk')
      | Nat.succ n, Nat.succ m =>
          simp only [runStops, List.getElem?_cons_succ] at hk hk'
          exact ih (advanceBatch g vel cb s b) n m bk bk' j pt
            (Nat.succ_le_succ_iff.mp hkk) hk hk' hj hst

/-- Witness for C3 at a concrete input: a frozen particle of a two-stop run
is carried unchanged into the later snapshot. -/
theorem frozen_particles_stay_frozen_witness :
    [frozenParticle][0]? = some frozenParticle :=
  frozen_particles_stay_frozen demoGrid zeroVelocity allTrue [0, 100]
    [frozenParticle] 0 1 [frozenParticle] [frozenParticle] 0 frozenParticle
    (by decide) rfl rfl rfl (by decide)

/-- C5: For every grid whose x-axis is classified periodic, and every
longitude (latitude and depth fixed), locating `lon` and locating
`lon + 360` produce the same fractional index. -/
theorem locate_periodic_add_360 (g : GridDescriptor)
    (h : g.typ = .x_periodic) (lon lat dep : ℚ) :
    locate g (lon + 360) lat dep = locate g lon lat dep := by
  unfold locate
  rw [normLon_add_360 g h lon]

/-- Witness for C5 at a concrete input. -/
theorem locate_periodic_add_360_witness :
    demoGrid.typ = TopologyTag.x_periodic ∧
      locate demoGrid (10 + 360) 0 (-10) = locate demoGrid 10 0 (-10) :=
  ⟨rfl, locate_periodic_add_360 demoGrid rfl 10 0 (-10)⟩

/-- C7: For every integration call whose inputs contain a configuration
error, the call fails immediately with that error — no snapshot is produced
and the caller-visible particle batch is exactly the untouched initial
batch. -/
theorem config_error_fails_fast (ds : Dataset) (g : GridDescriptor)
    (vel : VelocityField) (cb : Callback) (cfg : ParticleConfig)
    (wantDepthMotion : Bool) (normal update : List ℚ) (e : ConfigError)
    (h : validateConfig ds cfg wantDepthMotion = some e) :
    integrate ds g vel cb cfg wantDepthMotion normal update =
      (.error e, buildParticles cfg.x cfg.y cfg.z cfg.t) := by
  unfold integrate
  rw [h]

/-- Witness for C7 at a concrete input: mismatched array lengths fail the
call before stepping, leaving the initial batch untouched. -/
theorem config_error_fails_fast_witness :
    validateConfig ⟨["u", "v"]⟩ ⟨[0], [0], [0], [0, 1], "u", "v", none⟩ false
        = some .mismatchedLengths ∧
      integrate ⟨["u", "v"]⟩ demoGrid zeroVelocity allTrue
          ⟨[0], [0], [0], [0, 1], "u", "v", none⟩ false [0, 100] []
        = (.error .mismatchedLengths, buildParticles [0] [0] [0] [0, 1]) :=
  ⟨rfl, config_error_fails_fast ⟨["u", "v"]⟩ demoGrid zeroVelocity allTrue
    ⟨[0], [0], [0], [0, 1], "u", "v", none⟩ false [0, 100] []
    .mismatchedLengths rfl⟩

/-- C2: For every particle batch integrated through a velocity field that is
zero everywhere (and whose starting longitudes are fixed by the topology
wrap rule, as any in-range longitude is), every output stop's snapshot
reports each particle at exactly its starting position, whatever the time
span. -/
theorem zero_velocity_keeps_positions (g : GridDescriptor)
    (vel : VelocityField) (cb : Callback) (b : List Particle)
    (normal update : List ℚ)
    (hv : ∀ a c d e : ℚ, vel a c d e = some (0, 0, 0))
    (hb : ∀ pt ∈ b, normLon g pt.lon = pt.lon) :
    ∀ out ∈ (to_list_of_time g vel cb b normal update).2,
      ∀ (j : ℕ) (pt0 pt : Particle), b[j]? = some pt0 → out[j]? = some pt →
        posOf pt = posOf pt0 := by
  intro out hout
  exact runStops_zero_velocity g vel cb hv
    (stopsOf (initialTime b) normal update) b hb out hout

/-- Witness for C2 at the spec's scenario shape: a global periodic grid, one
particle at (0°, 0°), zero velocity, output times 0 and 100 — the stop-100
snapshot reports the particle at its starting position. -/
theorem zero_velocity_keeps_positions_witness :
    posOf ⟨0, 0, -10, 100, .ACTIVE⟩ = posOf demoParticle := by
  have h180 : wrap 180 360 = 180 := wrap_eq_self 180 (by norm_num) (by norm_num)
  have hb : ∀ pt ∈ [demoParticle], normLon demoGrid pt.lon = pt.lon := by
    intro pt hpt
    have hpt' : pt = demoParticle := by simpa using hpt
    subst hpt'
    norm_num [normLon, lonOrigin, demoGrid, demoParticle, h180]
  have hrun : (to_list_of_time demoGrid zeroVelocity allTrue [demoParticle]
      [0, 100] []).2
      = [[⟨0, 0, -10, 0, .ACTIVE⟩], [⟨0, 0, -10, 100, .ACTIVE⟩]] := by
    norm_num [to_list_of_time, stopsOf, isForward, sortedUnion, insertTime,
      runStops, advanceBatch, advanceParticle, rk4Step, zeroVelocity, allTrue,
      demoParticle, normLon, lonOrigin, demoGrid, inDomain, h180]
  have hout : [(⟨0, 0, -10, 100, .ACTIVE⟩ : Particle)] ∈
      (to_list_of_time demoGrid zeroVelocity allTrue [demoParticle]
        [0, 100] []).2 := by
    rw [hrun]
    simp
  exact zero_velocity_keeps_positions demoGrid zeroVelocity allTrue
    [demoParticle] [0, 100] [] (fun _ _ _ _ => rfl) hb
    [⟨0, 0, -10, 100, .ACTIVE⟩] hout 0 demoParticle
    ⟨0, 0, -10, 100, .ACTIVE⟩ rfl rfl

/-- C4: For every integration call, the StopSchedule of §4.4 step 1 is
sorted and duplicate-free, strictly monotonic in the direction of
integration (strictly increasing forward, strictly decreasing backward),
and its first element is the particle batch's initial time. -/
theorem stop_schedule_invariants (b : List Particle)
    (normal update : List ℚ) :
    (buildSchedule (initialTime b) (normal ++ update)).head?
        = some (initialTime b) ∧
    (buildSchedule (initialTime b) (normal ++ update)).Nodup ∧
    (isForward (initialTime b) (normal ++ update) = true →
      List.Sorted (· < ·) (buildSchedule (initialTime b) (normal ++ update))) ∧
    (isForward (initialTime b) (normal ++ update) = false →
      List.Sorted (· > ·) (buildSchedule (initialTime b) (normal ++ update))) := by
  unfold buildSchedule
  by_cases hf : isForward (initialTime b) (normal ++ update) = true
  · rw [if_pos hf]
    have hsorted : List.Sorted (· < ·) (initialTime b ::
        sortedUnion ((normal ++ update).filter
          (fun s => decide (initialTime b < s)))) := by
      refine List.sorted_cons.mpr ⟨?_, sortedUnion_sorted _⟩
      intro x hx
      exact of_decide_eq_true
        ((List.mem_filter.mp ((mem_sortedUnion x _).mp hx)).2)
    exact ⟨rfl, hsorted.nodup, fun _ => hsorted,
      fun hfalse => absurd (hf.symm.trans hfalse) (by decide)⟩
  · rw [if_neg hf]
    have hmem : ∀ x ∈ (sortedUnion ((normal ++ update).filter
        (fun s => decide (s < initialTime b)))).reverse, x < initialTime b := by
      intro x hx
      rw [List.mem_reverse] at hx
      exact of_decide_eq_true
        ((List.mem_filter.mp ((mem_sortedUnion x _).mp hx)).2)
    have hsorted : List.Sorted (· > ·) (initialTime b ::
        (sortedUnion ((normal ++ update).filter
          (fun s => decide (s < initialTime b)))).reverse) := by
      refine List.sorted_cons.mpr ⟨hmem, ?_⟩
      exact List.pairwise_reverse.mpr (sortedUnion_sorted _)
    exact ⟨rfl, hsorted.nodup, fun htrue => absurd htrue hf,
      fun _ => hsorted⟩

/-- Witness for C4 at concrete inputs: a forward call (stops after the start
time) gives a strictly increasing duplicate-free schedule headed by the
initial time; a backward call gives a strictly decreasing one. -/
theorem stop_schedule_invariants_witness :
    (buildSchedule (initialTime [demoParticle]) ([3, 1] ++ [2])).head?
        = some (initialTime [demoParticle]) ∧
    (buildSchedule (initialTime [demoParticle]) ([3, 1] ++ [2])).Nodup ∧
    List.Sorted (· < ·)
      (buildSchedule (initialTime [demoParticle]) ([3, 1] ++ [2])) ∧
    List.Sorted (· > ·)
      (buildSchedule (initialTime [demoParticle]) ([-3, -1] ++ [])) := by
  have hfwd : isForward (initialTime [demoParticle]) ([3, 1] ++ [2]) = true := by
    norm_num [isForward, initialTime, demoParticle]
  have hbwd : isForward (initialTime [demoParticle]) ([-3, -1] ++ []) = false := by
    norm_num [isForward, initialTime, demoParticle]
  exact ⟨(stop_schedule_invariants [demoParticle] [3, 1] [2]).1,
    (stop_schedule_invariants [demoParticle] [3, 1] [2]).2.1,
    (stop_schedule_invariants [demoParticle] [3, 1] [2]).2.2.1 hfwd,
    (stop_schedule_invariants [demoParticle] [-3, -1] []).2.2.2 hbwd⟩

/-- C6: `interpolate_position` is a round-trip inverse of `locate` on
rectilinear axes: for every in-domain position (one where `locate` succeeds
and whose longitude is fixed by the wrap rule, as any in-range longitude
is), the composition recovers the coordinates exactly — in particular for
every position lying exactly on a cell edge. -/
theorem locate_interpolate_roundTrip (g : GridDescriptor)
    (hx : List.Chain' (· < ·) g.xEdges) (hy : List.Chain' (· < ·) g.yEdges)
    (hz : List.Chain' (· < ·) g.zEdges) (lon lat dep : ℚ)
    (hlon : normLon g lon = lon) (fi : FractionalIndex)
    (h : locate g lon lat dep = some fi) :
    interpolate_position g fi = some (lon, lat, dep) := by
  unfold locate at h
  rw [hlon] at h
  rcases hx1 : fracIndexOn g.xEdges lon with _ | ix <;> rw [hx1] at h <;>
    rcases hy1 : fracIndexOn g.yEdges lat with _ | iy <;> rw [hy1] at h <;>
    rcases hz1 : fracIndexOn g.zEdges dep with _ | iz <;> rw [hz1] at h <;>
    simp only [] at h
  · cases h
  · cases h
  · cases h
  · cases h
  · cases h
  · cases h
  · cases h
  · rw [← Option.some_inj.mp h]
    unfold interpolate_position
    rw [interpPosOn_fracIndexOn g.xEdges lon ix hx hx1,
      interpPosOn_fracIndexOn g.yEdges lat iy hy hy1,
      interpPosOn_fracIndexOn g.zEdges dep iz hz hz1]

/-- Witness for C6 at a concrete input: on a small bounded rectilinear grid
the round trip recovers (1/2, 1, -1/2) exactly. -/
theorem locate_interpolate_roundTrip_witness :
    interpolate_position demoBoundedGrid ⟨1/2, 1/2, 1/2⟩
      = some (1/2, 1, -1/2) := by
  refine locate_interpolate_roundTrip demoBoundedGrid ?_ ?_ ?_
    (1/2) 1 (-1/2) rfl ⟨1/2, 1/2, 1/2⟩ ?_
  · show List.Chain' (· < ·) [0, 1, 3]
    norm_num [List.chain'_cons]
  · show List.Chain' (· < ·) [0, 2]
    norm_num [List.chain'_cons]
  · show List.Chain' (· < ·) [-1, 0]
    norm_num [List.chain'_cons]
  · have hfx : fracIndexOn demoBoundedGrid.xEdges
        (normLon demoBoundedGrid (1/2 : ℚ)) = some (1/2) := by
      have hnl : normLon demoBoundedGrid (1/2 : ℚ) = 1/2 := rfl
      rw [hnl]
      show fracIndexOn [0, 1, 3] (1/2) = some (1/2)
      norm_num [fracIndexOn]
    have hfy : fracIndexOn demoBoundedGrid.yEdges 1 = some (1/2) := by
      show fracIndexOn [0, 2] 1 = some (1/2)
      norm_num [fracIndexOn]
    have hfz : fracIndexOn demoBoundedGrid.zEdges (-1/2) = some (1/2) := by
      show fracIndexOn [-1, 0] (-1/2) = some (1/2)
      norm_num [fracIndexOn]
    unfold locate
    rw [hfx, hfy, hfz]

/-- C8: A per-particle sampling failure never aborts the whole integration
call: the run always yields one rectangular snapshot per stop whatever the
velocity field does, each particle's trajectory depends only on its own
initial state (so the others are produced normally), and an ACTIVE particle
whose velocity sample is undefined is degraded to the terminal
OUT_OF_DOMAIN status, frozen at its last valid position. -/
theorem per_particle_failure_isolated (g : GridDescriptor)
    (vel : VelocityField) (cb : Callback) (stops : List ℚ) :
    (∀ b : List Particle, (runStops g vel cb b stops).length = stops.length ∧
      ∀ out ∈ runStops g vel cb b stops, out.length = b.length) ∧
    (∀ (j : ℕ) (b₁ b₂ : List Particle), b₁[j]? = b₂[j]? →
      (runStops g vel cb b₁ stops).map (fun out => out[j]?) =
        (runStops g vel cb b₂ stops).map (fun out => out[j]?)) ∧
    (∀ (pt : Particle) (s : ℚ), pt.status = .ACTIVE →
      rk4Step vel pt.lon pt.lat pt.dep pt.t (s - pt.t) = none →
      advanceParticle g vel cb s pt = { pt with status := .OUT_OF_DOMAIN }) := by
  refine ⟨fun b => ⟨runStops_length g vel cb stops b,
      runStops_rectangular g vel cb stops b⟩,
    fun j b₁ b₂ hb => runStops_locality g vel cb j stops b₁ b₂ hb, ?_⟩
  intro pt s hst hnone
  unfold advanceParticle
  rw [if_neg (by rw [hst]; exact fun hcon => hcon rfl), hnone]

/-- Witness for C8 at a concrete input: with an everywhere-undefined
velocity field, the particle is exited (not the call aborted) and a batch
of two particles still yields full-length snapshots; trajectories agree
whenever the indexed particle agrees. -/
theorem per_particle_failure_isolated_witness :
    (runStops demoGrid undefinedVelocity allTrue
        [demoParticle, frozenParticle] [0, 100]).length
      = ([(0 : ℚ), 100]).length ∧
    (runStops demoGrid undefinedVelocity allTrue
        [demoParticle, frozenParticle] [0, 100]).map (fun out => out[1]?) =
      (runStops demoGrid undefinedVelocity allTrue
        [frozenParticle, frozenParticle] [0, 100]).map (fun out => out[1]?) ∧
    advanceParticle demoGrid undefinedVelocity allTrue 1 demoParticle
      = { demoParticle with status := .OUT_OF_DOMAIN } :=
  ⟨((per_particle_failure_isolated demoGrid undefinedVelocity allTrue
      [0, 100]).1 [demoParticle, frozenParticle]).1,
    (per_particle_failure_isolated demoGrid undefinedVelocity allTrue
      [0, 100]).2.1 1 [demoParticle, frozenParticle]
      [frozenParticle, frozenParticle] rfl,
    (per_particle_failure_isolated demoGrid undefinedVelocity allTrue
      [0, 100]).2.2 demoParticle 1 rfl rfl⟩

/-- C9: `classify` tags an axis periodic exactly when it spans a full 360°
range with consistent spacing at the wrap point (positive spacing and
positive span); it is total, a degenerate zero-span axis is tagged bounded,
and a global-longitude axis of the AVISO shape is classified `x_periodic`. -/
theorem classify_full_globe_iff (ax : List ℚ) :
    (classify ax = .x_periodic ↔ fullGlobeAxis ax) ∧
    (axisSpan ax = 0 → classify ax = .bounded) ∧
    classify avisoGlobalLons = .x_periodic := by
  refine ⟨?_, ?_, ?_⟩
  · match ax with
    | [] => simp [classify, fullGlobeAxis]
    | [a] => simp [classify, fullGlobeAxis]
    | a :: b :: rest =>
        simp only [classify]
        by_cases hc : 0 < b - a ∧ 0 < (b :: rest).getLastD a - a ∧
            ((b :: rest).getLastD a - a) + (b - a) = 360
        · rw [if_pos hc]
          exact iff_of_true rfl ⟨a, b, rest, rfl, hc.1, hc.2.1, hc.2.2⟩
        · rw [if_neg hc]
          refine iff_of_false (by simp) ?_
          rintro ⟨a', b', rest', heq, h1, h2, h3⟩
          injection heq with ha htl
          injection htl with hb hr
          subst ha
          subst hb
          subst hr
          exact hc ⟨h1, h2, h3⟩
  · match ax with
    | [] => intro _; rfl
    | [a] => intro _; rfl
    | a :: b :: rest =>
        intro h0
        have h0' : (b :: rest).getLastD a - a = 0 := h0
        simp only [classify]
        rw [if_neg]
        rintro ⟨_, h2, _⟩
        rw [h0'] at h2
        exact lt_irrefl 0 h2
  · norm_num [classify, avisoGlobalLons, List.getLastD]

/-- Witness for C9 at concrete inputs: a zero-span degenerate axis is
bounded, and a three-point full-globe axis is periodic. -/
theorem classify_full_globe_iff_witness :
    classify [5, 5] = TopologyTag.bounded ∧
      classify [0, 120, 240] = TopologyTag.x_periodic :=
  ⟨(classify_full_globe_iff [5, 5]).2.1 (by norm_num [axisSpan, List.getLastD]),
    (classify_full_globe_iff [0, 120, 240]).1.mpr
      ⟨0, 120, [240], rfl, by norm_num, by norm_num [List.getLastD],
        by norm_num [List.getLastD]⟩⟩

/-- C10: `convert_time` returns the signed number of seconds from
1970-01-01 00:00 to the given date — the numpy `datetime64` difference in
seconds: the epoch maps to 0, 1970-02-01 maps to 2678400 (the notebook's
`tf`), a pre-epoch date maps to a negative number (1969-12-31 to -86400),
and on every date of 1969–1971 it agrees with an independent civil-calendar
day count. -/
theorem convert_time_seconds_since_epoch :
    convert_time ⟨1970, 1, 1⟩ = 0 ∧
    convert_time ⟨1970, 2, 1⟩ = 2678400 ∧
    convert_time ⟨1969, 12, 31⟩ = -86400 ∧
    (datesAroundEpoch.all (fun d =>
      convert_time d == 86400 * (daysFromCivil d - daysFromCivil ⟨1970, 1, 1⟩)))
      = true := by
  refine ⟨by decide, by decide, by decide, ?_⟩
  set_option maxRecDepth 8000 in decide

end Seaduck
